import Mathlib

/-!
Shallow embedding of the core of the Markdown-to-HTML converter
(`md2html.py`): YAML front-matter extraction, render-context building,
template loading/rendering, and the template resolver, together with
theorems checking the natural-language specification against this code.

Collaborator libraries (pyyaml's `safe_load`, the markdown engine,
jinja2) are modelled: `safe_load` and the markdown renderer are abstract
function parameters, and jinja2 is modelled by a small evaluator for the
template subset actually used by the built-in `DEFAULT_TEMPLATE`.
-/

namespace Md2Html

/-! ## Python value model

Values produced by `yaml.safe_load` and stored in the render context.
`null` doubles as Python's `None` (absent front matter). Floats and
date scalars are not modelled; no claim depends on them. -/

inductive Yaml where
  | null : Yaml
  | str (s : String) : Yaml
  | int (n : Int) : Yaml
  | bool (b : Bool) : Yaml
  | list (xs : List Yaml) : Yaml
  | dict (kvs : List (String × Yaml)) : Yaml
deriving Repr

/-- Python truthiness (`if frontmatter:`): `None`, `""`, `0`, `False`,
`[]` and `{}` are falsy; everything else is truthy. -/
def pyTruthy : Yaml → Bool
  | .null => false
  | .str s => !(s = "")
  | .int n => !(n = 0)
  | .bool b => b
  | .list xs => !xs.isEmpty
  | .dict kvs => !kvs.isEmpty

mutual

/-- Python `str(value)`. `str` of a string is the string itself; containers
fall back to `repr` of their elements, as Python does. The `repr` of a
string is approximated with unconditional single quotes (Python switches
quote style when the string itself holds quotes; no claim exercises that). -/
def pyStr : Yaml → String
  | .null => "None"
  | .str s => s
  | .int n => toString n
  | .bool b => if b then "True" else "False"
  | .list xs => "[" ++ pyReprJoin xs ++ "]"
  | .dict kvs => "\x7b" ++ pyReprPairs kvs ++ "\x7d"

/-- Python `repr(value)` (used by `str` on container elements). -/
def pyRepr : Yaml → String
  | .null => "None"
  | .str s => "\x27" ++ s ++ "\x27"
  | .int n => toString n
  | .bool b => if b then "True" else "False"
  | .list xs => "[" ++ pyReprJoin xs ++ "]"
  | .dict kvs => "\x7b" ++ pyReprPairs kvs ++ "\x7d"

def pyReprJoin : List Yaml → String
  | [] => ""
  | [x] => pyRepr x
  | x :: y :: rest => pyRepr x ++ ", " ++ pyReprJoin (y :: rest)

def pyReprPairs : List (String × Yaml) → String
  | [] => ""
  | [kv] => "\x27" ++ kv.1 ++ "\x27: " ++ pyRepr kv.2
  | kv :: kv2 :: rest => "\x27" ++ kv.1 ++ "\x27: " ++ pyRepr kv.2 ++ ", " ++ pyReprPairs (kv2 :: rest)

end

/-! ## Character and string helpers -/

/-- The characters matched by Python's regex class `\s` on `str`
(ASCII whitespace plus the Unicode space separators). -/
def isPySpace (c : Char) : Bool :=
  c = ' ' || c = '\t' || c = '\n' || c = '\r' || c.val = 11 || c.val = 12 ||
  (28 ≤ c.val && c.val ≤ 31) || c.val = 133 || c.val = 160 || c.val = 0x1680 ||
  (0x2000 ≤ c.val && c.val ≤ 0x200A) || c.val = 0x2028 || c.val = 0x2029 ||
  c.val = 0x202F || c.val = 0x205F || c.val = 0x3000

/-- `needle` is a leading segment of `hay`. -/
def isPreOf : List Char → List Char → Bool
  | [], _ => true
  | _ :: _, [] => false
  | a :: as, b :: bs => a = b && isPreOf as bs

/-- `needle` occurs contiguously inside `hay` (Python's `in` on strings). -/
def isSubOf (needle : List Char) : List Char → Bool
  | [] => isPreOf needle []
  | c :: rest => isPreOf needle (c :: rest) || isSubOf needle rest

/-- Python `haystack_contains`: `needle in hay` for strings. -/
def strContains (hay needle : String) : Bool :=
  isSubOf needle.data hay.data

/-- Python `value.replace('"', '&quot;')`: every double-quote character is
replaced (single-character pattern, so char-by-char replacement is exact). -/
def escQuot (s : String) : String :=
  String.mk (s.data.foldr (fun c acc =>
    if c = '"' then '&' :: 'q' :: 'u' :: 'o' :: 't' :: ';' :: acc else c :: acc) [])

/-! ## The front-matter regex

`md2html.py` line 84:
  `frontmatter_pattern = re.compile(r'^---\s*\n(.*?)\n---\s*\n', re.DOTALL)`
applied with `.match` (anchored at offset 0). The matcher below reproduces
Python's leftmost-first backtracking: each `\s*` tries its longest
consumption first, the lazy group `(.*?)` tries its shortest extent first,
and the first globally successful assignment wins. -/

/-- All ways for `\s*` to consume a leading whitespace run, as the list of
remaining suffixes in Python's preference order (longest consumption first). -/
def wsStarSplits : List Char → List (List Char)
  | [] => [[]]
  | c :: rest =>
    if isPySpace c then wsStarSplits rest ++ [c :: rest] else [c :: rest]

/-- Match the closing `\n---\s*\n` of the pattern; returns the suffix after
the final newline (which is `match.end()` in the source). -/
def matchClose (s : List Char) : Option (List Char) :=
  match s with
  | '\n' :: '-' :: '-' :: '-' :: rest =>
    (wsStarSplits rest).findSome? fun r =>
      match r with
      | '\n' :: r2 => some r2
      | _ => none
  | _ => none

/-- Match the lazy group `(.*?)` followed by the closing delimiter: grow the
group one character at a time (shortest first), checking the close at each
step. Returns (group contents, suffix after the whole match). -/
def matchGroup (acc : List Char) (s : List Char) : Option (List Char × List Char) :=
  match matchClose s with
  | some rest => some (acc.reverse, rest)
  | none =>
    match s with
    | c :: s2 => matchGroup (c :: acc) s2
    | [] => none

/-- `frontmatter_pattern.match(md_content)`: at offset 0, `---`, then
`\s*\n`, then the lazy group and the closing delimiter. Returns
(group 1, text from `match.end()` on). -/
def matchFrontmatter (text : String) : Option (String × String) :=
  match text.data with
  | '-' :: '-' :: '-' :: rest =>
    (wsStarSplits rest).findSome? fun r =>
      match r with
      | '\n' :: r2 =>
        match matchGroup [] r2 with
        | some (g, after) => some (String.mk g, String.mk after)
        | none => none
      | _ => none
  | _ => none

/-- `extract_yaml_frontmatter` (md2html.py lines 74-107). The pyyaml
collaborator `yaml.safe_load` is passed in as `parse`; `.error` models a
raised `yaml.YAMLError`, and `Yaml.null` models Python `None` (both the
"no front matter" result and a YAML null document). -/
def extract_yaml_frontmatter (parse : String → Except String Yaml)
    (md_content : String) : Yaml × String :=
  match matchFrontmatter md_content with
  | some (yaml_content, after) =>
    match parse yaml_content with
    | .ok frontmatter => (frontmatter, after)
    | .error _ => (.null, md_content)
  | none => (.null, md_content)

/-! ## Render context

A Python dict with string keys, as an insertion-ordered association list
with unique keys (`ctxSet` overwrites in place, as dict assignment does). -/

def Context : Type := List (String × Yaml)

/-- `d[k]` / `d.get(k)`: first (= only) binding of `k`. -/
def ctxGet : Context → String → Option Yaml
  | [], _ => none
  | (k2, v) :: rest, k => if k2 = k then some v else ctxGet rest k

/-- `d[k] = v`: overwrite in place, append if absent (dict insertion order). -/
def ctxSet : Context → String → Yaml → Context
  | [], k, v => [(k, v)]
  | (k2, v2) :: rest, k, v =>
    if k2 = k then (k, v) :: rest else (k2, v2) :: ctxSet rest k v

/-- `context.update(frontmatter)` for a dict argument. -/
def dictUpdate (ctx : Context) : List (String × Yaml) → Context
  | [] => ctx
  | (k, v) :: rest => dictUpdate (ctxSet ctx k v) rest

/-! ## Meta-tag synthesis (md2html.py lines 165-176) -/

/-- Modelled collaborator: `yaml.dump(value, default_flow_style=False)` for
the mapping values reaching the dict branch of the meta-tag loop; one
`key: value` line per entry, in order (nested containers are dumped with
Python's `str`, an approximation no claim exercises). -/
def yamlDump : List (String × Yaml) → String
  | [] => ""
  | (k, v) :: rest => k ++ ": " ++ pyStr v ++ "\n" ++ yamlDump rest

/-- The string a metadata value contributes to its meta tag, before quote
escaping: lists are joined with `', '` from `str` of each element, dicts are
YAML-dumped, everything else is `str(value)`. -/
def metaValueStr : Yaml → String
  | .list items => String.intercalate ", " (items.map pyStr)
  | .dict kvs => yamlDump kvs
  | v => pyStr v

/-- One synthesized tag:
`f'<meta name="{key}" content="{str_value}">'` with
`str_value = str(value).replace('"', '&quot;')`. -/
def metaTagFor (key : String) (value : Yaml) : String :=
  "<meta name=\"" ++ key ++ "\" content=\"" ++ escQuot (metaValueStr value) ++ "\">"

/-- The `for key, value in frontmatter.items()` loop, threading the current
contents of `context['meta_tags']` through `acc`. After `context.update`,
the `meta_tags` entry of the context and of the front-matter dict are the
same Python list object, so when the loop reaches the key `"meta_tags"` it
reads back the tags appended so far — hence the `vEff` substitution. -/
def synthLoop : List (String × Yaml) → List Yaml → List Yaml
  | [], acc => acc
  | (k, v) :: rest, acc =>
    let vEff := if k = "meta_tags" then Yaml.list acc else v
    synthLoop rest (acc ++ [Yaml.str (metaTagFor k vEff)])

/-- `context = {'content': html_body, 'meta_tags': []}` (lines 153-156). -/
def baseContext (html_body : String) : Context :=
  [("content", .str html_body), ("meta_tags", .list [])]

/-- Context building for a truthy front-matter dict (lines 159-178):
`context.update(frontmatter)` followed by the meta-tag loop. The `.error`
branch models the `AttributeError` raised by
`context['meta_tags'].append(...)` when the front matter bound `meta_tags`
to a non-list. -/
def buildContext (kvs : List (String × Yaml)) (html_body : String) :
    Except String Context :=
  match ctxGet (dictUpdate (baseContext html_body) kvs) "meta_tags" with
  | some (.list init) =>
    .ok (ctxSet (dictUpdate (baseContext html_body) kvs) "meta_tags"
      (.list (synthLoop kvs init)))
  | _ => .error "AttributeError: object has no attribute append"

/-! ## Templates (jinja2 collaborator model)

jinja2 is modelled by a tiny evaluator covering exactly the constructs of
`DEFAULT_TEMPLATE`: literal text, `\x7b\x7b var \x7d\x7d`,
`\x7b\x7b var|default('lit') \x7d\x7d`, and one-level
`\x7b% for x in xs %\x7d ... \x7b% endfor %\x7d` loops. -/

inductive SNode where
  | text (s : String) : SNode
  | var (name : String) : SNode
  | varDefault (name dflt : String) : SNode
deriving Repr

inductive Node where
  | simple (s : SNode) : Node
  | forIn (x iter : String) (body : List SNode) : Node
deriving Repr

/-- jinja iteration: lists iterate elements, strings iterate characters,
dicts iterate keys; other values raise `TypeError`. -/
def jinjaIter : Yaml → Except String (List Yaml)
  | .list xs => .ok xs
  | .str s => .ok (s.data.map fun c => .str (String.mk [c]))
  | .dict kvs => .ok (kvs.map fun kv => .str kv.1)
  | _ => .error "TypeError: object is not iterable"

/-- Output of a non-block node: an undefined variable prints as the empty
string; `default('lit')` substitutes only for undefined. -/
def evalS (ctx : Context) : SNode → String
  | .text s => s
  | .var n =>
    match ctxGet ctx n with
    | some v => pyStr v
    | none => ""
  | .varDefault n d =>
    match ctxGet ctx n with
    | some v => pyStr v
    | none => d

def evalBody (ctx : Context) (body : List SNode) : String :=
  String.join (body.map (evalS ctx))

/-- Output of one node; iterating an undefined name raises
`UndefinedError` (jinja's default `Undefined` is not iterable). -/
def evalNode (ctx : Context) : Node → Except String String
  | .simple s => .ok (evalS ctx s)
  | .forIn x iter body =>
    match ctxGet ctx iter with
    | none => .error "UndefinedError: object is not iterable"
    | some v =>
      match jinjaIter v with
      | .error e => .error e
      | .ok items =>
        .ok (String.join (items.map fun i => evalBody (ctxSet ctx x i) body))

/-- Render a parsed template against a context. -/
def evalNodes (ctx : Context) : List Node → Except String String
  | [] => .ok ""
  | n :: rest =>
    match evalNode ctx n with
    | .error e => .error e
    | .ok s =>
      match evalNodes ctx rest with
      | .error e => .error e
      | .ok r => .ok (s ++ r)

/-- Template source rendered back from an AST (used to tie the compiled
form of the built-in template to its source text). -/
def unparseS : SNode → String
  | .text s => s
  | .var n => "\x7b\x7b " ++ n ++ " \x7d\x7d"
  | .varDefault n d => "\x7b\x7b " ++ n ++ "|default(\x27" ++ d ++ "\x27) \x7d\x7d"

def unparseN : Node → String
  | .simple s => unparseS s
  | .forIn x iter body =>
    "\x7b% for " ++ x ++ " in " ++ iter ++ " %\x7d" ++
      String.join (body.map unparseS) ++ "\x7b% endfor %\x7d"

def unparse (ns : List Node) : String :=
  String.join (ns.map unparseN)

/-- The source text of the built-in template (md2html.py lines 20-34),
verbatim. -/
def DEFAULT_TEMPLATE : String :=
  "<!DOCTYPE html>\n<html>\n<head>\n    <meta charset=\"utf-8\">\n    <meta name=\"viewport\" content=\"width=device-width, initial-scale=1.0\">\n    <title>\x7b\x7b title|default(\x27Document\x27) \x7d\x7d</title>\n    \x7b% for meta_tag in meta_tags %\x7d\n    \x7b\x7b meta_tag \x7d\x7d\n    \x7b% endfor %\x7d\n</head>\n<body>\n\x7b\x7b content \x7d\x7d\n</body>\n</html>\n"

/-- `jinja2.Template(DEFAULT_TEMPLATE)` as an AST. jinja's default
`keep_trailing_newline=False` drops the template's final newline, so the
last text node ends at `</html>`; `default_ast_unparses` below checks the
correspondence with the source string. -/
def DEFAULT_AST : List Node :=
  [ .simple (.text "<!DOCTYPE html>\n<html>\n<head>\n    <meta charset=\"utf-8\">\n    <meta name=\"viewport\" content=\"width=device-width, initial-scale=1.0\">\n    <title>"),
    .simple (.varDefault "title" "Document"),
    .simple (.text "</title>\n    "),
    .forIn "meta_tag" "meta_tags" [.text "\n    ", .var "meta_tag", .text "\n    "],
    .simple (.text "\n</head>\n<body>\n"),
    .simple (.var "content"),
    .simple (.text "\n</body>\n</html>") ]

/-- Rendering with the built-in template. -/
def defaultTemplateRender (ctx : Context) : Except String String :=
  evalNodes ctx DEFAULT_AST

/-- The `template_path` argument of `load_template` together with what the
filesystem and jinja2 do with it: no path given, path missing
(`os.path.exists` false), the `open`/`read` raising, `jinja2.Template`
raising, or a successfully compiled template (a render function whose
`.error` results model exceptions raised during `render`). -/
inductive TemplateArg where
  | noPath : TemplateArg
  | notFound : TemplateArg
  | readError (msg : String) : TemplateArg
  | compileError (msg : String) : TemplateArg
  | compiled (render : Context → Except String String) : TemplateArg

/-- `load_template` (md2html.py lines 50-71): read and compile the file
when the path is usable, falling back to the built-in template when no
path was given, the file is missing, or reading/compiling raised. -/
def load_template : TemplateArg → (Context → Except String String)
  | .noPath => defaultTemplateRender
  | .notFound => defaultTemplateRender
  | .readError _ => defaultTemplateRender
  | .compileError _ => defaultTemplateRender
  | .compiled render => render

/-! ## convert_md_to_html (md2html.py lines 110-185) -/

/-- The context-preparation phase of `convert_md_to_html` (lines 152-178):
the base context, plus — for truthy front matter — `context.update` and the
meta-tag loop. A truthy non-dict makes `context.update(frontmatter)` (or,
for a sequence of pairs, the later `frontmatter.items()`) raise. -/
def convertContext (frontmatter : Yaml) (html_body : String) : Except String Context :=
  if pyTruthy frontmatter then
    match frontmatter with
    | .dict kvs => buildContext kvs html_body
    | _ => .error "ValueError: dictionary update sequence"
  else .ok (baseContext html_body)

/-- The core conversion. `mdRender` is the trusted markdown collaborator
(`markdown.markdown` with the configured extensions), `parse` is
`yaml.safe_load`. The result is the rendered HTML, or `.error` when a
Python exception would propagate out of `convert_md_to_html`: raised
during context building, or raised by the template's `render`. -/
def convert_md_to_html (mdRender : String → String)
    (parse : String → Except String Yaml) (template_path : TemplateArg)
    (md_content : String) : Except String String :=
  match convertContext (extract_yaml_frontmatter parse md_content).1
      (mdRender (extract_yaml_frontmatter parse md_content).2) with
  | .error e => .error e
  | .ok ctx => load_template template_path ctx

/-! ## Template resolver (spec §4.2)

`select_template` is imported by `tests/test_template_handling.py` but the
function itself is not among the sources; it is modelled from the spec. -/

/-- Path components: split on `/` (so `"/a/b.md"` gives `["", "a", "b.md"]`). -/
def pathParts (p : String) : List String :=
  p.splitOn "/"

/-- Final path component (`Path(p).name` for the paths exercised here). -/
def pathName (p : String) : String :=
  (pathParts p).getLast?.getD ""

/-- Drop the final extension of a file name (`Path(p).stem`): everything
before the last dot, unless the dot is the leading character. -/
def stemOfName (n : String) : String :=
  match (n.splitOn ".").length with
  | 0 => n
  | 1 => n
  | _ =>
    let pieces := n.splitOn "."
    if pieces.headD "" = "" && pieces.length = 2 then n
    else String.intercalate "." pieces.dropLast

def pathStem (p : String) : String :=
  stemOfName (pathName p)

/-- Directory part of a path, as components (`Path(p).parent`). -/
def parentParts (p : String) : List String :=
  (pathParts p).dropLast

/-- Modelled from the spec: the upward walk of resolution step 3 — the
document's directory and its ancestors, innermost first, stopping once the
directory has no name component or is no longer under `input_root`
(`none` models an unknown root: walk until the name runs out). -/
def ancestorDirs (d : List String) (root : Option (List String)) : List (List String) :=
  if _hne : d = [] then []
  else if d.getLast?.getD "" = "" then []
  else if (match root with
           | none => false
           | some r => !(r.isPrefixOf d)) then []
  else d :: ancestorDirs d.dropLast root
termination_by d.length
decreasing_by
  have hp : 0 < d.length := List.length_pos.mpr _hne
  simp only [List.length_dropLast]
  omega

/-- Modelled from the spec: resolution step 1 — the metadata `template`
value substring-matched against the identifiers, first match in iteration
order. -/
def selectByOverride (available : List String) (tv : String) : Option String :=
  available.find? (fun id => strContains id tv)

/-- Modelled from the spec: resolution step 2 — a template whose stem
equals the document's stem and whose parent directory equals the
document's parent directory. -/
def selectColocated (document_path : String) (available : List String) : Option String :=
  available.find? (fun id =>
    pathStem id = pathStem document_path &&
    parentParts id = parentParts document_path)

/-- Modelled from the spec: resolution step 3 — at each ancestor level,
a template whose stem equals the directory's name. -/
def selectAncestor (document_path : String) (available : List String)
    (input_root : Option String) : Option String :=
  (ancestorDirs (parentParts document_path) (input_root.map pathParts)).findSome?
    (fun d => available.find? fun id => pathStem id = d.getLast?.getD "")

/-- Modelled from the spec: resolution steps 2-4 (tried when step 1 does
not apply or soft-misses). -/
def selectFallback (document_path : String) (available : List String)
    (input_root : Option String) : String :=
  match selectColocated document_path available with
  | some id => id
  | none =>
    match selectAncestor document_path available input_root with
    | some id => id
    | none => "DEFAULT"

/-- Modelled from the spec: `select(document_path, available_template_ids,
metadata_or_absent, input_root) -> template_id` (spec §4.2), first match
wins: (1) a metadata `template` value substring-matched against the
identifiers, (2) a co-located template with the document's stem, (3) an
ancestor-directory-name template, (4) the sentinel `"DEFAULT"`. -/
def select_template (document_path : String) (available : List String)
    (metadata : Yaml) (input_root : Option String) : String :=
  match metadata with
  | .dict kvs =>
    match ctxGet kvs "template" with
    | some tv =>
      match selectByOverride available (pyStr tv) with
      | some id => id
      | none => selectFallback document_path available input_root
    | none => selectFallback document_path available input_root
  | _ => selectFallback document_path available input_root

/-! ## Specification-side predicates -/

/-- The document shapes the code's regex actually recognizes (derived from
the matcher): three hyphens at offset 0, a whitespace run ending in a line
break, group content, a line break, three hyphens, a whitespace run, a
line break, then the body. -/
def RecognizedShape (text : String) : Prop :=
  ∃ (w g w2 rest : List Char),
    (∀ c ∈ w, isPySpace c = true) ∧ (∀ c ∈ w2, isPySpace c = true) ∧
    text.data = '-' :: '-' :: '-' ::
      (w ++ '\n' :: (g ++ '\n' :: '-' :: '-' :: '-' :: (w2 ++ '\n' :: rest)))

/-- The wire format the claim describes: a `---` delimiter line, content,
a matching `---` delimiter line, then a blank-line terminator (an empty
line after the closing delimiter). -/
def ClaimShape (text : String) : Prop :=
  ∃ (g rest : List Char),
    text.data = ('-' :: '-' :: '-' :: '\n' :: []) ++ g ++
      ('\n' :: '-' :: '-' :: '-' :: '\n' :: '\n' :: []) ++ rest

/-- The title binding of the built-in template:
`\x7b\x7b title|default('Document') \x7d\x7d`. -/
def defTitle (ctx : Context) : String :=
  evalS ctx (.varDefault "title" "Document")

/-- The front-matter dicts on which the meta-tag loop cannot raise: every
`meta_tags` entry is a list (so `context['meta_tags'].append` exists). -/
def MetaTagsEntryOk (kvs : List (String × Yaml)) : Prop :=
  ∀ kv ∈ kvs, kv.1 = "meta_tags" → ∃ l, kv.2 = Yaml.list l

/-! ## Generic helper lemmas -/

theorem findSome?_exists {α β : Type} {l : List α} {f : α → Option β} {b : β}
    (h : l.findSome? f = some b) : ∃ a ∈ l, f a = some b := by
  induction l with
  | nil => simp [List.findSome?] at h
  | cons x xs ih =>
    rw [List.findSome?] at h
    cases hx : f x with
    | some y => rw [hx] at h; exact ⟨x, .head _, by simpa [hx] using h⟩
    | none =>
      rw [hx] at h
      obtain ⟨a, ha, hfa⟩ := ih h
      exact ⟨a, .tail _ ha, hfa⟩

theorem strJoin_cons (a : String) (l : List String) :
    String.join (a :: l) = a ++ String.join l := by
  apply String.ext
  simp [String.join_eq, String.data_append]

theorem strJoin_nil : String.join ([] : List String) = "" := rfl

/-! ## Lemmas about the whitespace/backtracking matcher -/

theorem wsStarSplits_decomp {s r : List Char} (h : r ∈ wsStarSplits s) :
    ∃ w, (∀ c ∈ w, isPySpace c = true) ∧ s = w ++ r := by
  induction s with
  | nil =>
    simp [wsStarSplits] at h
    exact ⟨[], by simp, by simp [h]⟩
  | cons c rest ih =>
    rw [wsStarSplits] at h
    by_cases hc : isPySpace c
    · rw [if_pos hc] at h
      rcases List.mem_append.mp h with h1 | h2
      · obtain ⟨w, hw, hs⟩ := ih h1
        refine ⟨c :: w, ?_, by simp [hs]⟩
        intro x hx
        rcases List.mem_cons.mp hx with rfl | hx2
        · exact hc
        · exact hw x hx2
      · simp at h2
        exact ⟨[], by simp, by simp [h2]⟩
    · rw [if_neg hc] at h
      simp at h
      exact ⟨[], by simp, by simp [h]⟩

theorem matchClose_decomp {s rest : List Char} (h : matchClose s = some rest) :
    ∃ w, (∀ c ∈ w, isPySpace c = true) ∧
      s = '\n' :: '-' :: '-' :: '-' :: (w ++ '\n' :: rest) := by
  unfold matchClose at h
  split at h
  case h_2 => exact absurd h (by simp)
  case h_1 s0 =>
    obtain ⟨r, hr, hfr⟩ := findSome?_exists h
    obtain ⟨w, hw, hs⟩ := wsStarSplits_decomp hr
    split at hfr
    case h_1 r2 =>
      simp only [Option.some.injEq] at hfr
      exact ⟨w, hw, by rw [hs, hfr]⟩
    case h_2 => simp at hfr

theorem matchGroup_decomp {s : List Char} :
    ∀ {acc g rest}, matchGroup acc s = some (g, rest) →
      ∃ d w, (∀ c ∈ w, isPySpace c = true) ∧ g = acc.reverse ++ d ∧
        s = d ++ '\n' :: '-' :: '-' :: '-' :: (w ++ '\n' :: rest) := by
  induction s with
  | nil =>
    intro acc g rest h
    rw [matchGroup] at h
    cases hc : matchClose [] with
    | some r =>
      obtain ⟨w, _, habs⟩ := matchClose_decomp hc
      exact absurd habs (by simp)
    | none => rw [hc] at h; exact absurd h (by simp)
  | cons c s2 ih =>
    intro acc g rest h
    rw [matchGroup] at h
    cases hc : matchClose (c :: s2) with
    | some r =>
      rw [hc] at h
      obtain ⟨w, hw, hs⟩ := matchClose_decomp hc
      simp at h
      exact ⟨[], w, hw, by simp [h.1], by simpa [h.2] using hs⟩
    | none =>
      rw [hc] at h
      obtain ⟨d, w, hw, hg, hs⟩ := ih h
      refine ⟨c :: d, w, hw, ?_, by simp [hs]⟩
      simpa using hg

theorem matchFrontmatter_decomp {text : String} {g body : String}
    (h : matchFrontmatter text = some (g, body)) :
    ∃ w w2, (∀ c ∈ w, isPySpace c = true) ∧ (∀ c ∈ w2, isPySpace c = true) ∧
      text.data = '-' :: '-' :: '-' ::
        (w ++ '\n' :: (g.data ++ '\n' :: '-' :: '-' :: '-' :: (w2 ++ '\n' :: body.data))) := by
  unfold matchFrontmatter at h
  split at h
  case h_2 => exact absurd h (by simp)
  case h_1 rest0 heq =>
    obtain ⟨r, hr, hfr⟩ := findSome?_exists h
    obtain ⟨w, hw, hs⟩ := wsStarSplits_decomp hr
    split at hfr
    case h_2 => simp at hfr
    case h_1 r2 =>
      cases hmg : matchGroup [] r2 with
      | some p =>
        rw [hmg] at hfr
        obtain ⟨gl, after⟩ := p
        simp at hfr
        obtain ⟨d, w2, hw2, hg, hr2⟩ := matchGroup_decomp hmg
        simp at hg
        refine ⟨w, w2, hw, hw2, ?_⟩
        rw [heq, hs, hr2, ← hg, ← hfr.1, ← hfr.2]
      | none => rw [hmg] at hfr; exact absurd hfr (by simp)

/-! ## Lemmas about context operations -/

theorem ctxGet_ctxSet_self (ctx : Context) (k : String) (v : Yaml) :
    ctxGet (ctxSet ctx k v) k = some v := by
  induction ctx with
  | nil => simp [ctxSet, ctxGet]
  | cons kv rest ih =>
    obtain ⟨k2, v2⟩ := kv
    by_cases hk : k2 = k
    · simp [ctxSet, hk, ctxGet]
    · simp [ctxSet, hk, ctxGet, ih]

theorem ctxGet_ctxSet_ne (ctx : Context) {k2 k : String} (v : Yaml) (h : k2 ≠ k) :
    ctxGet (ctxSet ctx k2 v) k = ctxGet ctx k := by
  induction ctx with
  | nil => simp [ctxSet, ctxGet, h]
  | cons kv rest ih =>
    obtain ⟨k3, v3⟩ := kv
    by_cases hk : k3 = k2
    · simp [ctxSet, hk, ctxGet, h]
    · simp only [ctxSet, if_neg hk]
      by_cases hk3 : k3 = k
      · simp [ctxGet, hk3]
      · simp [ctxGet, hk3, ih]

theorem ctxGet_none_of_not_mem {kvs : List (String × Yaml)} {k : String}
    (h : k ∉ kvs.map Prod.fst) : ctxGet kvs k = none := by
  induction kvs with
  | nil => rfl
  | cons kv rest ih =>
    obtain ⟨k1, v1⟩ := kv
    simp only [List.map_cons, List.mem_cons] at h
    push_neg at h
    have h1 : k1 ≠ k := fun he => h.1 he.symm
    rw [ctxGet, if_neg h1]
    exact ih h.2

theorem ctxGet_dictUpdate_of_none {kvs : List (String × Yaml)} {k : String} :
    ∀ {ctx : Context}, ctxGet kvs k = none →
      ctxGet (dictUpdate ctx kvs) k = ctxGet ctx k := by
  induction kvs with
  | nil => intro ctx _; rfl
  | cons kv rest ih =>
    intro ctx h
    obtain ⟨k1, v1⟩ := kv
    rw [ctxGet] at h
    by_cases hk : k1 = k
    · rw [if_pos hk] at h; exact absurd h (by simp)
    · rw [if_neg hk] at h
      rw [dictUpdate, ih h, ctxGet_ctxSet_ne _ _ hk]

theorem ctxGet_dictUpdate_nodup {kvs : List (String × Yaml)} {k : String} {v : Yaml} :
    ∀ {ctx : Context}, (kvs.map Prod.fst).Nodup → ctxGet kvs k = some v →
      ctxGet (dictUpdate ctx kvs) k = some v := by
  induction kvs with
  | nil => intro ctx _ h; simp [ctxGet] at h
  | cons kv rest ih =>
    intro ctx hnd h
    obtain ⟨k1, v1⟩ := kv
    simp at hnd
    rw [ctxGet] at h
    by_cases hk : k1 = k
    · rw [if_pos hk] at h
      simp at h
      subst hk
      have hnone : ctxGet rest k1 = none :=
        ctxGet_none_of_not_mem (by simpa using hnd.1)
      rw [dictUpdate, ctxGet_dictUpdate_of_none hnone, ← h, ctxGet_ctxSet_self]
    · rw [if_neg hk] at h
      rw [dictUpdate]
      exact ih hnd.2 h

/-- Either `dictUpdate` leaves a key's binding alone, or the final binding
is one of the pairs of the update argument. -/
theorem ctxGet_dictUpdate_cases (kvs : List (String × Yaml)) (k : String) :
    ∀ ctx : Context,
      ctxGet (dictUpdate ctx kvs) k = ctxGet ctx k ∨
      ∃ v, (k, v) ∈ kvs ∧ ctxGet (dictUpdate ctx kvs) k = some v := by
  induction kvs with
  | nil => intro ctx; left; rfl
  | cons kv rest ih =>
    intro ctx
    obtain ⟨k1, v1⟩ := kv
    rw [dictUpdate]
    rcases ih (ctxSet ctx k1 v1) with h | ⟨v, hv, hget⟩
    · by_cases hk : k1 = k
      · right
        refine ⟨v1, ?_, ?_⟩
        · rw [hk]; exact List.mem_cons_self _ _
        · rw [h, hk, ctxGet_ctxSet_self]
      · left
        rw [h, ctxGet_ctxSet_ne _ _ hk]
    · right
      exact ⟨v, List.mem_cons_of_mem _ hv, hget⟩

/-- Any key present before `dictUpdate` is still present after it. -/
theorem ctxGet_dictUpdate_isSome {ctx : Context} {k : String}
    (kvs : List (String × Yaml)) (h : (ctxGet ctx k).isSome) :
    (ctxGet (dictUpdate ctx kvs) k).isSome := by
  rcases ctxGet_dictUpdate_cases kvs k ctx with hc | ⟨v, _, hget⟩
  · rw [hc]; exact h
  · rw [hget]; rfl

/-! ## Lemmas about meta-tag synthesis -/

theorem synthLoop_decomp (kvs : List (String × Yaml)) :
    ∀ acc, ∃ tags, synthLoop kvs acc = acc ++ tags ∧ tags.length = kvs.length ∧
      ∀ t ∈ tags, ∃ s, t = Yaml.str s := by
  induction kvs with
  | nil => intro acc; exact ⟨[], by simp [synthLoop], rfl, by simp⟩
  | cons kv rest ih =>
    intro acc
    obtain ⟨k, v⟩ := kv
    rw [synthLoop]
    obtain ⟨tags, heq, hlen, hstr⟩ :=
      ih (acc ++ [Yaml.str (metaTagFor k (if k = "meta_tags" then Yaml.list acc else v))])
    refine ⟨Yaml.str (metaTagFor k (if k = "meta_tags" then Yaml.list acc else v)) :: tags,
      by simpa using heq, by simpa using hlen, ?_⟩
    intro t ht
    rcases List.mem_cons.mp ht with rfl | ht2
    · exact ⟨_, rfl⟩
    · exact hstr t ht2

/-- A front-matter dict whose `meta_tags` entries are all lists never makes
`buildContext` raise, and the resulting context has a list `meta_tags`. -/
theorem buildContext_ok {kvs : List (String × Yaml)} (body : String)
    (h : MetaTagsEntryOk kvs) :
    ∃ ctx l, buildContext kvs body = .ok ctx ∧
      ctxGet ctx "meta_tags" = some (.list l) := by
  unfold buildContext
  rcases ctxGet_dictUpdate_cases kvs "meta_tags" (baseContext body) with hc | ⟨v, hv, hget⟩
  · have hbase : ctxGet (baseContext body) "meta_tags" = some (.list []) := by
      simp [baseContext, ctxGet]
    rw [hc, hbase]
    exact ⟨_, _, rfl, ctxGet_ctxSet_self _ _ _⟩
  · obtain ⟨l, hl⟩ := h ("meta_tags", v) hv rfl
    simp only at hl
    subst hl
    rw [hget]
    exact ⟨_, _, rfl, ctxGet_ctxSet_self _ _ _⟩

/-! ## Substring lemmas -/

theorem isPreOf_self_append (n suf : List Char) : isPreOf n (n ++ suf) = true := by
  induction n with
  | nil => rfl
  | cons c rest ih => simp [isPreOf, ih]

theorem isSubOf_of_isPre {n hay : List Char} (h : isPreOf n hay = true) :
    isSubOf n hay = true := by
  cases hay with
  | nil => exact h
  | cons c rest => simp [isSubOf, h]

theorem isSubOf_of_decomp (n : List Char) :
    ∀ (pre suf hay : List Char), hay = pre ++ n ++ suf → isSubOf n hay = true := by
  intro pre
  induction pre with
  | nil =>
    intro suf hay h
    subst h
    exact isSubOf_of_isPre (isPreOf_self_append n suf)
  | cons c pre2 ih =>
    intro suf hay h
    subst h
    simp only [List.cons_append]
    rw [isSubOf]
    have hs := ih suf (pre2 ++ n ++ suf) rfl
    simp only [List.append_assoc] at hs
    simp [hs]

/-! ## Lemmas about extraction and rendering -/

/-- What `extract_yaml_frontmatter` can hand back as metadata: either
Python `None`, or a value actually produced by the parser. -/
theorem extract_fst_cases (parse : String → Except String Yaml) (text : String) :
    (extract_yaml_frontmatter parse text).1 = .null ∨
    ∃ g, parse g = .ok (extract_yaml_frontmatter parse text).1 := by
  cases hm : matchFrontmatter text with
  | none => left; simp [extract_yaml_frontmatter, hm]
  | some p =>
    obtain ⟨g, after⟩ := p
    cases hp : parse g with
    | ok fm => right; exact ⟨g, by simp [extract_yaml_frontmatter, hm, hp]⟩
    | error e => left; simp [extract_yaml_frontmatter, hm, hp]

/-- The built-in template renders without error on any context that binds
`meta_tags` to a list. -/
theorem defaultTemplateRender_ok {ctx : Context} {l : List Yaml}
    (h : ctxGet ctx "meta_tags" = some (.list l)) :
    ∃ s, defaultTemplateRender ctx = .ok s := by
  unfold defaultTemplateRender DEFAULT_AST
  simp [evalNodes, evalNode, h, jinjaIter]

/-! ## Membership lemmas for the resolver -/

theorem selectByOverride_mem {available : List String} {tv id : String}
    (h : selectByOverride available tv = some id) : id ∈ available :=
  List.mem_of_find?_eq_some h

theorem selectColocated_mem {document_path : String} {available : List String} {id : String}
    (h : selectColocated document_path available = some id) : id ∈ available :=
  List.mem_of_find?_eq_some h

theorem selectAncestor_mem {document_path : String} {available : List String}
    {input_root : Option String} {id : String}
    (h : selectAncestor document_path available input_root = some id) : id ∈ available := by
  obtain ⟨d, _, hd⟩ := findSome?_exists h
  exact List.mem_of_find?_eq_some hd

theorem selectFallback_mem {document_path : String} {available : List String}
    {input_root : Option String} (hd : "DEFAULT" ∈ available) :
    selectFallback document_path available input_root ∈ available := by
  unfold selectFallback
  cases h2 : selectColocated document_path available with
  | some id => exact selectColocated_mem h2
  | none =>
    cases h3 : selectAncestor document_path available input_root with
    | some id => exact selectAncestor_mem h3
    | none => exact hd

set_option maxRecDepth 4096 in
/-- The `DEFAULT_AST` is the compiled form of `DEFAULT_TEMPLATE`: unparsing
it and restoring the trailing newline stripped by jinja's default
`keep_trailing_newline=False` recovers the source text exactly. -/
theorem default_ast_unparses : unparse DEFAULT_AST ++ "\n" = DEFAULT_TEMPLATE := by
  decide

/-! ## Claim theorems -/

/-- C1: for every document path, metadata (present or absent), input root,
and registry of identifiers containing at least the fallback `"DEFAULT"`,
the template-selection operation is total (a Lean function, never throws)
and returns an identifier present in the registry. -/
theorem select_template_mem (document_path : String) (available : List String)
    (metadata : Yaml) (input_root : Option String)
    (hdef : "DEFAULT" ∈ available) :
    select_template document_path available metadata input_root ∈ available := by
  unfold select_template
  cases metadata with
  | dict kvs =>
    cases hg : ctxGet kvs "template" with
    | some tv =>
      simp only [hg]
      cases ho : selectByOverride available (pyStr tv) with
      | some id => simpa [ho] using selectByOverride_mem ho
      | none => simpa [ho] using selectFallback_mem hdef
    | none => simpa [hg] using selectFallback_mem hdef
  | null => exact selectFallback_mem hdef
  | str s => exact selectFallback_mem hdef
  | int n => exact selectFallback_mem hdef
  | bool b => exact selectFallback_mem hdef
  | list xs => exact selectFallback_mem hdef

theorem select_template_mem_witness :
    "DEFAULT" ∈ ["/t/custom.jinja", "DEFAULT"] ∧
    select_template "/docs/page.md" ["/t/custom.jinja", "DEFAULT"] .null none ∈
      ["/t/custom.jinja", "DEFAULT"] :=
  ⟨by decide, select_template_mem _ _ _ _ (by decide)⟩

/-- C3: for every input text beginning with a recognized metadata block
whose enclosed content fails to parse, `extract_yaml_frontmatter` returns
absent metadata together with the original text completely unchanged. -/
theorem extract_parse_failure_keeps_text
    (parse : String → Except String Yaml) (text g body e : String)
    (hm : matchFrontmatter text = some (g, body)) (hp : parse g = .error e) :
    extract_yaml_frontmatter parse text = (.null, text) := by
  simp [extract_yaml_frontmatter, hm, hp]

theorem extract_parse_failure_keeps_text_witness :
    matchFrontmatter "---\na: [\n---\nrest" = some ("a: [", "rest") ∧
    extract_yaml_frontmatter (fun _ => .error "while parsing a flow node")
      "---\na: [\n---\nrest" = (.null, "---\na: [\n---\nrest") :=
  ⟨by decide,
    extract_parse_failure_keeps_text _ _ "a: [" "rest" _ (by decide) rfl⟩

/-- C4: for every input text beginning with a recognized metadata block
whose enclosed content parses to an empty/null result (Python `None`),
`extract_yaml_frontmatter` returns absent metadata but a body with the
block stripped: the text following the block's terminator, a nonempty
block prefix having been removed — in contrast to the parse-failure case. -/
theorem extract_null_result_strips_block
    (parse : String → Except String Yaml) (text g body : String)
    (hm : matchFrontmatter text = some (g, body)) (hp : parse g = .ok .null) :
    extract_yaml_frontmatter parse text = (.null, body) ∧
    ∃ block, block ≠ [] ∧ text.data = block ++ body.data := by
  constructor
  · simp [extract_yaml_frontmatter, hm, hp]
  · obtain ⟨w, w2, _, _, hdecomp⟩ := matchFrontmatter_decomp hm
    refine ⟨'-' :: '-' :: '-' ::
      (w ++ '\n' :: (g.data ++ '\n' :: '-' :: '-' :: '-' :: (w2 ++ ['\n']))),
      by simp, ?_⟩
    rw [hdecomp]
    simp

theorem extract_null_result_strips_block_witness :
    extract_yaml_frontmatter (fun _ => .ok .null) "---\n\n---\nrest" =
      (.null, "rest") ∧
    ∃ block, block ≠ [] ∧ ("---\n\n---\nrest").data = block ++ ("rest").data :=
  extract_null_result_strips_block _ _ "" "rest" (by decide) rfl

/-- C5 (amended): when loading or compiling a non-fallback template fails
(path missing, file unreadable, or `jinja2.Template` raising), the failure
is recovered locally and conversion behaves exactly as with the built-in
default template; a failure while rendering an already-compiled template
is not recovered (see the counterexample). -/
theorem load_failure_falls_back (mdRender : String → String)
    (parse : String → Except String Yaml) (text msg : String) :
    convert_md_to_html mdRender parse (.readError msg) text =
      convert_md_to_html mdRender parse .noPath text ∧
    convert_md_to_html mdRender parse (.compileError msg) text =
      convert_md_to_html mdRender parse .noPath text ∧
    convert_md_to_html mdRender parse .notFound text =
      convert_md_to_html mdRender parse .noPath text := by
  refine ⟨?_, ?_, ?_⟩ <;>
  · unfold convert_md_to_html
    cases convertContext (extract_yaml_frontmatter parse text).1
      (mdRender (extract_yaml_frontmatter parse text).2) <;> rfl

/-- C5 counterexample: a template that compiled successfully but whose
`render` raises does not fall back to the built-in template — the error
propagates out of `convert_md_to_html` (the same input under the built-in
template renders fine, shown for contrast). -/
theorem render_failure_does_not_fall_back :
    convert_md_to_html id (fun _ => .ok .null)
      (.compiled (fun _ => .error "UndefinedError: boom")) "hi" =
      .error "UndefinedError: boom" ∧
    convert_md_to_html id (fun _ => .ok .null) .noPath "hi" =
      .ok ("<!DOCTYPE html>\n<html>\n<head>\n    <meta charset=\"utf-8\">\n    <meta name=\"viewport\" content=\"width=device-width, initial-scale=1.0\">\n    <title>Document</title>\n    \n</head>\n<body>\nhi\n</body>\n</html>") := by
  constructor
  · rfl
  · rfl

/-- C7 (amended): the code recognizes a metadata block only when the text
starts, at offset 0, with three hyphens, a whitespace run (possibly
containing line breaks) ending in a line break, arbitrary group content,
a line break, three hyphens, a whitespace run, and a terminating line
break — the content is not validated as key-value material at recognition
time and no blank line is required; any text not of this shape yields
absent metadata and the original text unchanged. -/
theorem frontmatter_recognition_shape (parse : String → Except String Yaml)
    (text : String) :
    (∀ g body, matchFrontmatter text = some (g, body) → RecognizedShape text) ∧
    (matchFrontmatter text = none →
      extract_yaml_frontmatter parse text = (.null, text)) := by
  constructor
  · intro g body hm
    obtain ⟨w, w2, hw, hw2, hd⟩ := matchFrontmatter_decomp hm
    exact ⟨w, g.data, w2, body.data, hw, hw2, hd⟩
  · intro hm
    simp [extract_yaml_frontmatter, hm]

theorem frontmatter_recognition_shape_witness :
    RecognizedShape "---\ntitle: x\n---\nbody" ∧
    extract_yaml_frontmatter (fun _ => .ok .null) "no block here" =
      (.null, "no block here") :=
  ⟨(frontmatter_recognition_shape (fun _ => .ok .null) _).1 "title: x" "body"
      (by decide),
   (frontmatter_recognition_shape (fun _ => .ok .null) _).2 (by decide)⟩

/-- C7 counterexample: `"---\na: b\n---\nbody"` has no blank-line
terminator after the closing delimiter, yet the code recognizes the block
and strips it — refuting the claim that recognition requires a blank-line
terminator and that any text without one is returned unchanged. -/
theorem frontmatter_no_blank_line_needed :
    matchFrontmatter "---\na: b\n---\nbody" = some ("a: b", "body") ∧
    ¬ ClaimShape "---\na: b\n---\nbody" ∧
    (extract_yaml_frontmatter (fun _ => .ok (.dict [("a", .str "b")]))
        "---\na: b\n---\nbody").2 ≠ "---\na: b\n---\nbody" := by
  refine ⟨by decide, ?_, by decide⟩
  intro hcl
  obtain ⟨g, rest, hd⟩ := hcl
  have hsub : isSubOf ('\n' :: '-' :: '-' :: '-' :: '\n' :: '\n' :: [])
      ("---\na: b\n---\nbody").data = true :=
    isSubOf_of_decomp _ (('-' :: '-' :: '-' :: '\n' :: []) ++ g) rest _ hd
  have hno : isSubOf ('\n' :: '-' :: '-' :: '-' :: '\n' :: '\n' :: [])
      ("---\na: b\n---\nbody").data = false := by decide
  rw [hno] at hsub
  exact absurd hsub (by simp)

/-- C9: rendering with front matter that parses to the empty mapping
produces exactly the same HTML as rendering with front matter that parses
to null/absent — the code tests truthiness, not presence. -/
theorem empty_mapping_same_as_absent (mdRender : String → String)
    (tmpl : TemplateArg) (text : String) :
    convert_md_to_html mdRender (fun _ => .ok (.dict [])) tmpl text =
    convert_md_to_html mdRender (fun _ => .ok .null) tmpl text := by
  unfold convert_md_to_html extract_yaml_frontmatter
  cases hm : matchFrontmatter text with
  | none => rfl
  | some p =>
    obtain ⟨g, after⟩ := p
    rfl

theorem escQuot_no_quote (s : String) : '"' ∉ (escQuot s).data := by
  show '"' ∉ (s.data.foldr (fun c acc =>
    if c = '"' then '&' :: 'q' :: 'u' :: 'o' :: 't' :: ';' :: acc else c :: acc) [])
  induction s.data with
  | nil => simp
  | cons c rest ih =>
    by_cases hc : c = '"'
    · simp [hc, ih]
    · simp [hc, ih]
      exact fun he => hc he.symm

/-- C2 (amended): no exception propagates out of `convert_md_to_html`
provided the parser hands back, for truthy results, a mapping whose
`meta_tags` entries (if any) are lists, and the selected template's render
does not itself raise on list-`meta_tags` contexts; outside this domain the
exception escapes the core (see the counterexample) and is caught by the
per-file orchestrator. -/
theorem convert_no_exception_on_safe_domain (mdRender : String → String)
    (parse : String → Except String Yaml) (tmpl : TemplateArg) (text : String)
    (htmpl : ∀ ctx l, ctxGet ctx "meta_tags" = some (.list l) →
      ∃ s, load_template tmpl ctx = .ok s)
    (hparse : ∀ g v, parse g = .ok v → pyTruthy v = true →
      ∃ kvs, v = .dict kvs ∧ MetaTagsEntryOk kvs) :
    ∃ s, convert_md_to_html mdRender parse tmpl text = .ok s := by
  have hctx : ∃ ctx l, convertContext (extract_yaml_frontmatter parse text).1
      (mdRender (extract_yaml_frontmatter parse text).2) = .ok ctx ∧
      ctxGet ctx "meta_tags" = some (.list l) := by
    unfold convertContext
    cases htr : pyTruthy (extract_yaml_frontmatter parse text).1 with
    | false =>
      refine ⟨baseContext (mdRender (extract_yaml_frontmatter parse text).2),
        [], ?_, ?_⟩
      · simp [htr]
      · simp [baseContext, ctxGet]
    | true =>
      rcases extract_fst_cases parse text with hnull | ⟨g, hg⟩
      · rw [hnull] at htr
        simp [pyTruthy] at htr
      · obtain ⟨kvs, hv, hok⟩ := hparse g _ hg htr
        obtain ⟨ctx, l, hbc, hml⟩ :=
          buildContext_ok (mdRender (extract_yaml_frontmatter parse text).2) hok
        rw [hv] at htr
        rw [hv]
        refine ⟨ctx, l, ?_, hml⟩
        simp [htr, hbc]
  obtain ⟨ctx, l, hc, hl⟩ := hctx
  unfold convert_md_to_html
  rw [hc]
  exact htmpl ctx l hl

theorem convert_no_exception_witness :
    ∃ s, convert_md_to_html id (fun _ => .ok .null) .noPath "# Hi" = .ok s :=
  convert_no_exception_on_safe_domain id _ .noPath "# Hi"
    (fun _ _ h => defaultTemplateRender_ok h)
    (fun _ v hg ht => by
      simp only [Except.ok.injEq] at hg
      rw [← hg] at ht
      simp [pyTruthy] at ht)

/-- C2 counterexample: front matter parsing to a truthy scalar (pyyaml
returns the string `"hello"` for this document) makes
`context.update(frontmatter)` raise, and the exception escapes
`convert_md_to_html`: the core is not exception-free over all raw texts. -/
theorem convert_raises_on_scalar_frontmatter :
    convert_md_to_html id (fun _ => .ok (.str "hello")) .noPath
      "---\nhello\n---\n\nbody" =
      .error "ValueError: dictionary update sequence" := rfl

/-- C6 (amended): each synthesized meta tag is formatted exactly
`<meta name="KEY" content="VALUE">` with the key verbatim; a list value
renders as the `", "`-join of its elements' string representations; no
double-quote character survives the `&quot;` escaping; and — provided the
mapping's `meta_tags` entries (if any) are lists, without which the loop
raises instead of producing tags (see the counterexample) — the loop
appends exactly one tag per top-level key-value pair. -/
theorem meta_tag_generation
    (k : String) (v : Yaml) (items : List Yaml) (s : String)
    (kvs : List (String × Yaml)) (acc : List Yaml) (body : String)
    (hok : MetaTagsEntryOk kvs) :
    metaTagFor k v =
      "<meta name=\"" ++ k ++ "\" content=\"" ++ escQuot (metaValueStr v) ++ "\">" ∧
    metaValueStr (.list items) = String.intercalate ", " (items.map pyStr) ∧
    '"' ∉ (escQuot s).data ∧
    (synthLoop kvs acc).length = acc.length + kvs.length ∧
    ∃ ctx, buildContext kvs body = .ok ctx := by
  refine ⟨rfl, rfl, escQuot_no_quote s, ?_, ?_⟩
  · obtain ⟨tags, heq, hlen, _⟩ := synthLoop_decomp kvs acc
    rw [heq]
    simp [hlen]
  · obtain ⟨ctx, _, hbc, _⟩ := buildContext_ok body hok
    exact ⟨ctx, hbc⟩

theorem meta_tag_generation_witness :
    MetaTagsEntryOk [("title", Yaml.str "T")] ∧
    (metaTagFor "author" (.str "Jane") =
      "<meta name=\"" ++ "author" ++ "\" content=\"" ++
        escQuot (metaValueStr (.str "Jane")) ++ "\">" ∧
    metaValueStr (.list [.str "a", .str "b", .str "c"]) =
      String.intercalate ", " ([Yaml.str "a", .str "b", .str "c"].map pyStr) ∧
    '"' ∉ (escQuot "x\"y").data ∧
    (synthLoop [("title", Yaml.str "T")] []).length = ([] : List Yaml).length + 1 ∧
    ∃ ctx, buildContext [("title", Yaml.str "T")] "B" = .ok ctx) := by
  have hok : MetaTagsEntryOk [("title", Yaml.str "T")] := by
    intro kv hkv heq
    simp at hkv
    subst hkv
    simp at heq
  exact ⟨hok, meta_tag_generation "author" (.str "Jane")
    [.str "a", .str "b", .str "c"] "x\"y" [("title", Yaml.str "T")] [] "B" hok⟩

/-- C6 counterexample: for the non-empty mapping
`\x7b'meta_tags': 'xy'\x7d` the very first `context['meta_tags'].append`
raises `AttributeError`, so no meta tag is generated for this mapping —
refuting "one meta tag per top-level pair" for every non-empty mapping. -/
theorem meta_tag_nonlist_meta_tags_raises :
    buildContext [("meta_tags", Yaml.str "xy")] "B" =
      .error "AttributeError: object has no attribute append" ∧
    convert_md_to_html id (fun _ => .ok (.dict [("meta_tags", .str "xy")]))
      .noPath "---\nmeta_tags: xy\n---\n\nbody" =
      .error "AttributeError: object has no attribute append" :=
  ⟨rfl, rfl⟩

/-- C10: when a truthy front-matter mapping binds `meta_tags` to a list,
the context handed to the template binds `meta_tags` to that very list
extended — never replaced — with one synthesized tag string per top-level
metadata key (including one for `meta_tags` itself), in key order. -/
theorem meta_tags_list_extended (kvs : List (String × Yaml)) (body : String)
    (l : List Yaml) (hnd : (kvs.map Prod.fst).Nodup)
    (hl : ctxGet kvs "meta_tags" = some (.list l)) :
    ∃ ctx tags, buildContext kvs body = .ok ctx ∧
      ctxGet ctx "meta_tags" = some (.list (l ++ tags)) ∧
      tags.length = kvs.length ∧
      ∀ t ∈ tags, ∃ s, t = Yaml.str s := by
  have hup : ctxGet (dictUpdate (baseContext body) kvs) "meta_tags" =
      some (.list l) := ctxGet_dictUpdate_nodup hnd hl
  obtain ⟨tags, heq, hlen, hstr⟩ := synthLoop_decomp kvs l
  refine ⟨ctxSet (dictUpdate (baseContext body) kvs) "meta_tags"
    (.list (synthLoop kvs l)), tags, ?_, ?_, hlen, hstr⟩
  · unfold buildContext
    rw [hup]
  · rw [ctxGet_ctxSet_self, heq]

theorem meta_tags_list_extended_witness :
    ∃ ctx tags,
      buildContext [("meta_tags", Yaml.list [Yaml.str "<meta x>"]),
        ("title", Yaml.str "T")] "B" = .ok ctx ∧
      ctxGet ctx "meta_tags" =
        some (.list ([Yaml.str "<meta x>"] ++ tags)) ∧
      tags.length = 2 ∧
      ∀ t ∈ tags, ∃ s, t = Yaml.str s :=
  meta_tags_list_extended _ "B" _ (by decide) rfl

theorem evalBody_meta_tag (ctx : Context) (t : String) :
    evalBody (ctxSet ctx "meta_tag" (.str t))
      [.text "\n    ", .var "meta_tag", .text "\n    "] =
      "\n    " ++ t ++ "\n    " := by
  simp [evalBody, evalS, ctxGet_ctxSet_self, strJoin_cons, strJoin_nil, pyStr,
    String.append_assoc, String.append_empty]

/-- C8: rendered against any context binding `meta_tags` to a list of
strings and `content` to a string, the built-in fallback template yields
an HTML5 document with the utf-8 charset meta tag, the responsive viewport
meta tag, a `<title>` bound to the context's `title` (the literal
`Document` when `title` is absent), every `meta_tags` string emitted
verbatim in order, and the `content` value as the document body. -/
theorem default_template_output (ctx : Context) (tags : List String) (c : String)
    (hm : ctxGet ctx "meta_tags" = some (.list (tags.map Yaml.str)))
    (hc : ctxGet ctx "content" = some (.str c)) :
    defaultTemplateRender ctx = .ok (
      "<!DOCTYPE html>\n<html>\n<head>\n    <meta charset=\"utf-8\">\n    <meta name=\"viewport\" content=\"width=device-width, initial-scale=1.0\">\n    <title>"
      ++ defTitle ctx ++ "</title>\n    "
      ++ String.join (tags.map fun t => "\n    " ++ t ++ "\n    ")
      ++ "\n</head>\n<body>\n" ++ c ++ "\n</body>\n</html>") ∧
    (ctxGet ctx "title" = none → defTitle ctx = "Document") := by
  constructor
  · have hloop : ∀ ts : List String,
        (ts.map Yaml.str).map (fun i => evalBody (ctxSet ctx "meta_tag" i)
          [.text "\n    ", .var "meta_tag", .text "\n    "]) =
        ts.map (fun t => "\n    " ++ t ++ "\n    ") := by
      intro ts
      induction ts with
      | nil => rfl
      | cons t rest ih => simp [ih, evalBody_meta_tag]
    unfold defaultTemplateRender DEFAULT_AST defTitle
    simp only [evalNodes, evalNode, evalS, hm, hc, jinjaIter, hloop, pyStr]
    simp [String.append_assoc, String.append_empty]
  · intro h
    simp [defTitle, evalS, h]

theorem default_template_output_witness :
    defaultTemplateRender
        [("content", Yaml.str "B"), ("meta_tags", Yaml.list [])] = .ok (
      "<!DOCTYPE html>\n<html>\n<head>\n    <meta charset=\"utf-8\">\n    <meta name=\"viewport\" content=\"width=device-width, initial-scale=1.0\">\n    <title>"
      ++ defTitle [("content", Yaml.str "B"), ("meta_tags", Yaml.list [])]
      ++ "</title>\n    "
      ++ String.join (([] : List String).map fun t => "\n    " ++ t ++ "\n    ")
      ++ "\n</head>\n<body>\n" ++ "B" ++ "\n</body>\n</html>") ∧
    (ctxGet [("content", Yaml.str "B"), ("meta_tags", Yaml.list [])] "title" =
        none →
      defTitle [("content", Yaml.str "B"), ("meta_tags", Yaml.list [])] =
        "Document") :=
  default_template_output _ [] "B" rfl rfl

end Md2Html
